import Mathlib

/-!
Shallow embedding of the SmartRate Estimator repository (a tender-quotation
builder): catalog data model, the deterministic matching pass of
`TenderProcessor.handleProcess`, the monolithic app's `handleProcessTender`,
the adapter boundary `findBestMatchingItem`, the catalog benchmark predicate
`isLowest`, backup restore, CSV generation and the variance computation.
Rates (JS numbers) are modelled as rationals; strings as Lean strings, with
char-level `lowerStr` / `trimStr` embedding `toLowerCase()` / `trim()`.
-/

/-- Status of a tender line item, from the `TenderItem` interface:
`'pending' | 'matched' | 'review' | 'no-match'`. -/
inductive Status where
  | pending
  | matched
  | review
  | noMatch
deriving DecidableEq, Repr

/-- Catalog record, from the `SORItem` interface. -/
structure SORItem where
  id : String
  name : String
  unit : String
  rate : ℚ
  scopeOfWork : String
  source : String
  timestamp : ℕ
deriving DecidableEq, Repr

/-- Tender line item, from the `TenderItem` interface. -/
structure TenderItem where
  id : String
  name : String
  quantity : ℚ
  requestedScope : String
  estimatedRate : Option ℚ
  matchedRate : Option SORItem
  status : Status
deriving DecidableEq, Repr

/-- One record produced by `parseBulkItems` (the extraction adapter):
`{name, quantity, requestedScope, estimatedRate?}`; `quantity` is optional
here because the code applies the JS-falsy default `p.quantity || 1`. -/
structure ParsedItem where
  name : String
  quantity : Option ℚ
  requestedScope : String
  estimatedRate : Option ℚ
deriving DecidableEq, Repr

/-- Character-level embedding of JS `toLowerCase()` (ASCII case folding,
which is all the comparisons in this repository exercise). -/
def lowerStr (s : String) : String := String.mk (s.data.map Char.toLower)

/-- Character-level trimming of surrounding whitespace. -/
def trimChars (l : List Char) : List Char :=
  ((l.dropWhile Char.isWhitespace).reverse.dropWhile Char.isWhitespace).reverse

/-- Character-level embedding of JS `trim()`. -/
def trimStr (s : String) : String := String.mk (trimChars s.data)

/-- JS-falsy defaulting `p.quantity || 1`: absent or `0` becomes `1`. -/
def defaultQuantity : Option ℚ → ℚ
  | none => 1
  | some q => if q = 0 then 1 else q

/-- `initialTenderItems`: a parsed record becomes a `pending` item with a
fresh id and no matched reference (`handleProcess`, step 1). -/
def toInitial (id : String) (p : ParsedItem) : TenderItem :=
  { id := id
    name := p.name
    quantity := defaultQuantity p.quantity
    requestedScope := p.requestedScope
    estimatedRate := p.estimatedRate
    matchedRate := none
    status := Status.pending }

/-- Stable insertion by ascending rate; `insertByRate x` places `x` before
the first element whose rate is ≥ `x.rate`, so earlier elements stay ahead
of later equal-rate ones, as with the stable JS `sort((a,b) => a.rate - b.rate)`. -/
def insertByRate (x : SORItem) : List SORItem → List SORItem
  | [] => [x]
  | y :: ys => if x.rate ≤ y.rate then x :: y :: ys else y :: insertByRate x ys

/-- Embedding of `[...exactMatches].sort((a, b) => a.rate - b.rate)`:
stable ascending sort by rate (only the head is consumed by the code). -/
def sortByRate : List SORItem → List SORItem
  | [] => []
  | x :: xs => insertByRate x (sortByRate xs)

/-- `sorData.filter(sor => sor.name.toLowerCase() === tenderItem.name.toLowerCase())`. -/
def exactMatches (sorData : List SORItem) (name : String) : List SORItem :=
  sorData.filter fun sor => lowerStr sor.name = lowerStr name

/-- Per-item step of `handleProcess` in `TenderProcessor.tsx` (the matching
loop body, lines 38–76). The adapter `findBestMatchingItem` is abstracted as
a pure oracle from the item's name and requested scope to an optional id;
`if (matchedId)` is JS truthiness, so an empty-string id is treated as
absent. -/
def processItem (sorData : List SORItem) (adapter : String → String → Option String)
    (t : TenderItem) : TenderItem :=
  match exactMatches sorData t.name with
  | [] =>
    match adapter t.name t.requestedScope with
    | some mid =>
      if mid = "" then { t with status := Status.noMatch }
      else
        match sorData.find? fun d => d.id = mid with
        | some best => { t with status := Status.review, matchedRate := some best }
        | none => { t with status := Status.noMatch }
    | none => { t with status := Status.noMatch }
  | e :: es =>
    let lowestExact := (sortByRate (e :: es)).headD e
    let isScopeIdentical :=
      trimStr (lowerStr lowestExact.scopeOfWork) = trimStr (lowerStr t.requestedScope)
    { t with
      status := if isScopeIdentical then Status.matched else Status.review
      matchedRate := some lowestExact }

/-- Map with the element index, embedding the generation of one fresh
`crypto.randomUUID()` per parsed record via an abstract id source. -/
def mapIdxFrom (f : ℕ → ParsedItem → TenderItem) : ℕ → List ParsedItem → List TenderItem
  | _, [] => []
  | i, p :: ps => f i p :: mapIdxFrom f (i + 1) ps

/-- The whole automatic matching pass of `TenderProcessor.handleProcess`:
each parsed record becomes an initial `pending` item and is pushed through
the matching loop, in input order. -/
def handleProcess (sorData : List SORItem) (adapter : String → String → Option String)
    (idGen : ℕ → String) (parsed : List ParsedItem) : List TenderItem :=
  mapIdxFrom (fun i p => processItem sorData adapter (toInitial (idGen i) p)) 0 parsed

/-- Per-item step of the monolithic app's `handleProcessTender` (part_000,
lines 420–432): no exact-name step, one adapter call per record, and status
`'matched'` exactly when the returned id resolves in `sorData`. -/
def processTenderItem (sorData : List SORItem) (adapter : String → String → Option String)
    (id : String) (p : ParsedItem) : TenderItem :=
  let matchedId := adapter p.name p.requestedScope
  let mtch :=
    match matchedId with
    | some mid => sorData.find? fun d => d.id = mid
    | none => none
  { id := id
    name := p.name
    quantity := defaultQuantity p.quantity
    requestedScope := p.requestedScope
    estimatedRate := p.estimatedRate
    matchedRate := mtch
    status := if mtch.isSome then Status.matched else Status.noMatch }

/-- The "accept match" update applied to one list element:
`i.id === item.id ? {...i, status: 'matched'} : i`. -/
def acceptOne (tid : String) (i : TenderItem) : TenderItem :=
  if i.id = tid then { i with status := Status.matched } else i

/-- The "accept match" user action (`TenderProcessor.tsx`, line 298):
`setItems(prev => prev.map(i => i.id === item.id ? {...i, status: 'matched'} : i))`. -/
def acceptMatch (items : List TenderItem) (tid : String) : List TenderItem :=
  items.map (acceptOne tid)

/-- `Math.min(...sameItems.map(r => r.rate))` over a list of entries
(the empty case is never reached because the caller guards on length). -/
def minRateOf : List SORItem → ℚ
  | [] => 0
  | x :: xs => xs.foldl (fun m r => min m r.rate) x.rate

/-- The benchmark predicate `isLowest` of `RateList`:
`sameItems.length > 1 && item.rate === Math.min(...sameItems.map(r => r.rate))`
where `sameItems` filters `allRates` by case-insensitive name equality. -/
def isLowest (allRates : List SORItem) (item : SORItem) : Bool :=
  let sameItems := allRates.filter fun r => lowerStr r.name = lowerStr item.name
  decide (1 < sameItems.length) && decide (item.rate = minRateOf sameItems)

/-- Catalog summary row `{id, name}` passed to the matching adapter. -/
structure DbSummaryItem where
  id : String
  name : String
deriving DecidableEq, Repr

/-- Outcome of the remote `generateContent` call made by
`findBestMatchingItem`, abstracted at the try/catch boundary:
`failure` is a thrown transport error; `response none` is a reply whose
text fails `JSON.parse`; `response (some m)` is a parsed object whose
`matchedId` field is `m` (`none` when the field is null or absent). -/
inductive RemoteOutcome where
  | failure
  | response (parsed : Option (Option String))
deriving DecidableEq, Repr

/-- Embedding of `findBestMatchingItem` (`geminiservice.ts`, lines 12–45).
The first component is the returned id (`null` is `none`); the second
records whether the remote call was issued at all. The guard
`if (dbItems.length === 0) return null` precedes the call; every error path
inside the `try` is caught and returns `null`; `result.matchedId || null`
turns a JS-falsy (empty-string) id into `null`. -/
def findBestMatchingItem (dbItems : List DbSummaryItem) (remote : RemoteOutcome) :
    Option String × Bool :=
  if dbItems.isEmpty then (none, false)
  else
    match remote with
    | RemoteOutcome.failure => (none, true)
    | RemoteOutcome.response none => (none, true)
    | RemoteOutcome.response (some m) =>
      (match m with
       | none => none
       | some s => if s = "" then none else some s, true)

/-- Result of `JSON.parse` on a backup file, at the granularity
`handleRestore` inspects: only `Array.isArray(data)` is checked and the
array is then trusted as `SORItem[]` wholesale, so the array payload is
typed as catalog entries here; the other constructors are the non-array
JSON shapes. -/
inductive JsonValue where
  | jnull
  | jbool (b : Bool)
  | jnum (q : ℚ)
  | jstr (s : String)
  | jarr (entries : List SORItem)
  | jobj
deriving DecidableEq, Repr

/-- Embedding of `handleRestore` (part_000, lines 396–413) after the file
read: `parsed = none` is a `JSON.parse` throw (caught, `alert("Invalid
backup file.")`); an array replaces the store when the user confirms; any
other parse result falls through the `if (Array.isArray(data))` with no
effect. Returns the new store and the alert message, if any. -/
def handleRestore (store : List SORItem) (confirmed : Bool) (parsed : Option JsonValue) :
    List SORItem × Option String :=
  match parsed with
  | none => (store, some "Invalid backup file.")
  | some (JsonValue.jarr entries) =>
    if confirmed then (entries, none) else (store, none)
  | some _ => (store, none)

/-- Character-level embedding of the global regex replace
`val.replace(/"/g, '""')`: every double quote becomes two. -/
def escQuotes : List Char → List Char
  | [] => []
  | c :: cs => if c = '"' then '"' :: '"' :: escQuotes cs else c :: escQuotes cs

/-- One CSV cell: `` `"${val.replace(/"/g, '""')}"` `` — the value wrapped
in double quotes with internal quotes doubled. -/
def escapeCell (s : String) : String :=
  "\"" ++ String.mk (escQuotes s.data) ++ "\""

/-- One CSV row: escaped cells joined with `","`. -/
def csvLine (row : List String) : String :=
  String.intercalate "," (row.map escapeCell)

/-- Embedding of `generateCSV` (part_000, lines 34–41, and the inline
version of `handleExportExcel`): header row then data rows, each cell
quoted/escaped, rows joined with CRLF, and a UTF-8 byte-order mark
prepended. Cell stringification (`String(cell)`, null/undefined to `""`)
happens upstream, so cells arrive as strings. -/
def generateCSV (headers : List String) (rows : List (List String)) : String :=
  "\uFEFF" ++ String.intercalate "\r\n" ((headers :: rows).map csvLine)

/-- `calculateDiff` (`TenderProcessor.tsx`, lines 82–85):
`if (!est || !quoted) return null; return ((quoted - est) / est) * 100`.
JS falsiness of a number: absent or `0`. -/
def calculateDiff (est quoted : Option ℚ) : Option ℚ :=
  match est, quoted with
  | some e, some q => if e = 0 ∨ q = 0 then none else some ((q - e) / e * 100)
  | _, _ => none

/-- The Percentage Diff CSV cell, abstracted over number formatting:
either the literal `'N/A'` or a computed percentage value. -/
inductive DiffCell where
  | na
  | percent (value : ℚ)
deriving DecidableEq, Repr

/-- The Percentage Diff column of `handleExportExcel` (lines 103–113):
`quoted = i.matchedRate?.rate || 0`, `est = i.estimatedRate || 0`,
`diff = est ? ((quoted - est) / est) * 100 : 0`, and the cell is
`est ? diff.toFixed(2) + '%' : 'N/A'` (the `toFixed(2)` formatting is kept
as the rational value). -/
def exportDiffCell (i : TenderItem) : DiffCell :=
  let quoted := (i.matchedRate.map fun m => m.rate).getD 0
  let est := i.estimatedRate.getD 0
  if est = 0 then DiffCell.na else DiffCell.percent ((quoted - est) / est * 100)

/-! ### Helper lemmas -/

theorem insertByRate_ne_nil (x : SORItem) (l : List SORItem) : insertByRate x l ≠ [] := by
  cases l with
  | nil => simp [insertByRate]
  | cons y ys =>
    simp only [insertByRate]
    split <;> simp

theorem mem_insertByRate {z x : SORItem} {l : List SORItem} :
    z ∈ insertByRate x l ↔ z = x ∨ z ∈ l := by
  induction l with
  | nil => simp [insertByRate]
  | cons y ys ih =>
    simp only [insertByRate]
    split
    · simp
    · simp [ih]
      tauto

theorem mem_sortByRate {z : SORItem} {l : List SORItem} :
    z ∈ sortByRate l ↔ z ∈ l := by
  induction l with
  | nil => simp [sortByRate]
  | cons x xs ih => simp [sortByRate, mem_insertByRate, ih]

theorem headD_insertByRate_le (x : SORItem) (l : List SORItem) (d : SORItem) :
    ((insertByRate x l).headD d).rate ≤ x.rate := by
  cases l with
  | nil => simp [insertByRate]
  | cons y ys =>
    simp only [insertByRate]
    split
    · simp
    · rename_i h
      simpa using le_of_lt (lt_of_not_le h)

theorem headD_insertByRate_le_headD (x y : SORItem) (ys : List SORItem) (d : SORItem) :
    ((insertByRate x (y :: ys)).headD d).rate ≤ ((y :: ys).headD d).rate := by
  simp only [insertByRate]
  split
  · rename_i h
    simpa using h
  · simp

theorem sortByRate_headD_min (l : List SORItem) (d : SORItem) :
    ∀ z ∈ l, ((sortByRate l).headD d).rate ≤ z.rate := by
  induction l with
  | nil => intro z hz; cases hz
  | cons x xs ih =>
    intro z hz
    rcases List.mem_cons.mp hz with rfl | hz
    · simpa [sortByRate] using headD_insertByRate_le z (sortByRate xs) d
    · cases hS : sortByRate xs with
      | nil =>
        exact absurd (mem_sortByRate.mpr hz) (by simp [hS])
      | cons y ys =>
        have h1 : ((insertByRate x (y :: ys)).headD d).rate ≤ ((y :: ys).headD d).rate :=
          headD_insertByRate_le_headD x y ys d
        have h2 : ((sortByRate xs).headD d).rate ≤ z.rate := ih z hz
        rw [hS] at h2
        simpa [sortByRate, hS] using le_trans h1 h2

theorem sortByRate_headD_mem (x : SORItem) (xs : List SORItem) (d : SORItem) :
    (sortByRate (x :: xs)).headD d ∈ x :: xs := by
  cases hS : sortByRate (x :: xs) with
  | nil =>
    exact absurd hS (by simpa [sortByRate] using insertByRate_ne_nil x (sortByRate xs))
  | cons y ys =>
    have : y ∈ sortByRate (x :: xs) := by simp [hS]
    simpa [hS] using mem_sortByRate.mp this

theorem foldl_min_le_init (xs : List SORItem) (a : ℚ) :
    xs.foldl (fun m r => min m r.rate) a ≤ a := by
  induction xs generalizing a with
  | nil => simp
  | cons x xs ih =>
    simp only [List.foldl_cons]
    exact le_trans (ih (min a x.rate)) (min_le_left _ _)

theorem foldl_min_le_mem (xs : List SORItem) (a : ℚ) :
    ∀ z ∈ xs, xs.foldl (fun m r => min m r.rate) a ≤ z.rate := by
  induction xs generalizing a with
  | nil => intro z hz; cases hz
  | cons x xs ih =>
    intro z hz
    rcases List.mem_cons.mp hz with rfl | hz
    · simp only [List.foldl_cons]
      exact le_trans (foldl_min_le_init xs (min a z.rate)) (min_le_right _ _)
    · simpa using ih (min a x.rate) z hz

theorem foldl_min_attained (xs : List SORItem) (a : ℚ) :
    xs.foldl (fun m r => min m r.rate) a = a ∨
      ∃ z ∈ xs, xs.foldl (fun m r => min m r.rate) a = z.rate := by
  induction xs generalizing a with
  | nil => left; rfl
  | cons x xs ih =>
    simp only [List.foldl_cons]
    rcases ih (min a x.rate) with h | ⟨z, hz, hzeq⟩
    · rcases min_choice a x.rate with hm | hm
      · left; rw [h, hm]
      · right; exact ⟨x, by simp, by rw [h, hm]⟩
    · right; exact ⟨z, by simp [hz], hzeq⟩

theorem minRateOf_le {l : List SORItem} : ∀ z ∈ l, minRateOf l ≤ z.rate := by
  cases l with
  | nil => intro z hz; cases hz
  | cons x xs =>
    intro z hz
    rcases List.mem_cons.mp hz with rfl | hz
    · exact foldl_min_le_init xs z.rate
    · exact foldl_min_le_mem xs x.rate z hz

theorem minRateOf_attained (x : SORItem) (xs : List SORItem) :
    ∃ z ∈ x :: xs, minRateOf (x :: xs) = z.rate := by
  rcases foldl_min_attained xs x.rate with h | ⟨z, hz, hzeq⟩
  · exact ⟨x, by simp, h⟩
  · exact ⟨z, by simp [hz], hzeq⟩

theorem processItem_adapter_none {sor : List SORItem} {adapter : String → String → Option String}
    {t : TenderItem} (hE : exactMatches sor t.name = [])
    (hA : adapter t.name t.requestedScope = none) :
    processItem sor adapter t = { t with status := Status.noMatch } := by
  simp only [processItem, hE, hA]

theorem processItem_adapter_empty {sor : List SORItem} {adapter : String → String → Option String}
    {t : TenderItem} (hE : exactMatches sor t.name = [])
    (hA : adapter t.name t.requestedScope = some "") :
    processItem sor adapter t = { t with status := Status.noMatch } := by
  simp [processItem, hE, hA]

theorem processItem_adapter_unresolved {sor : List SORItem}
    {adapter : String → String → Option String} {t : TenderItem} {mid : String}
    (hE : exactMatches sor t.name = [])
    (hA : adapter t.name t.requestedScope = some mid) (hm : ¬ mid = "")
    (hF : sor.find? (fun d => d.id = mid) = none) :
    processItem sor adapter t = { t with status := Status.noMatch } := by
  simp only [processItem, hE, hA, hF, if_neg hm]

theorem processItem_semantic {sor : List SORItem}
    {adapter : String → String → Option String} {t : TenderItem} {mid : String} {e : SORItem}
    (hE : exactMatches sor t.name = [])
    (hA : adapter t.name t.requestedScope = some mid) (hm : ¬ mid = "")
    (hF : sor.find? (fun d => d.id = mid) = some e) :
    processItem sor adapter t = { t with status := Status.review, matchedRate := some e } := by
  simp only [processItem, hE, hA, hF, if_neg hm]

theorem processItem_exact {sor : List SORItem} {adapter : String → String → Option String}
    {t : TenderItem} {e : SORItem} {es : List SORItem}
    (hE : exactMatches sor t.name = e :: es) :
    processItem sor adapter t =
      { t with
        status :=
          if trimStr (lowerStr ((sortByRate (e :: es)).headD e).scopeOfWork) =
              trimStr (lowerStr t.requestedScope)
          then Status.matched else Status.review
        matchedRate := some ((sortByRate (e :: es)).headD e) } := by
  simp only [processItem, hE]

theorem processItem_shape (sor : List SORItem) (adapter : String → String → Option String)
    (t : TenderItem) :
    (processItem sor adapter t).name = t.name ∧
      (processItem sor adapter t).requestedScope = t.requestedScope ∧
      (processItem sor adapter t).estimatedRate = t.estimatedRate ∧
      (processItem sor adapter t).quantity = t.quantity ∧
      (processItem sor adapter t).id = t.id ∧
      (processItem sor adapter t).status ≠ Status.pending ∧
      (t.matchedRate = none →
        ((processItem sor adapter t).matchedRate.isSome ↔
          (processItem sor adapter t).status ≠ Status.noMatch)) := by
  cases hE : exactMatches sor t.name with
  | nil =>
    cases hA : adapter t.name t.requestedScope with
    | none => rw [processItem_adapter_none hE hA]; simp
    | some mid =>
      by_cases hm : mid = ""
      · subst hm
        rw [processItem_adapter_empty hE hA]; simp
      · cases hF : sor.find? (fun d => d.id = mid) with
        | none => rw [processItem_adapter_unresolved hE hA hm hF]; simp
        | some best =>
          rw [processItem_semantic hE hA hm hF]; simp
  | cons e es =>
    rw [processItem_exact hE]
    refine ⟨rfl, rfl, rfl, rfl, rfl, ?_, ?_⟩ <;> split <;> simp

theorem mapIdxFrom_length (f : ℕ → ParsedItem → TenderItem) :
    ∀ (l : List ParsedItem) (i : ℕ), (mapIdxFrom f i l).length = l.length := by
  intro l
  induction l with
  | nil => intro i; rfl
  | cons p ps ih => intro i; simp [mapIdxFrom, ih]

theorem mapIdxFrom_getElem? (f : ℕ → ParsedItem → TenderItem) :
    ∀ (l : List ParsedItem) (i j : ℕ),
      (mapIdxFrom f i l)[j]? = (l[j]?).map fun p => f (i + j) p := by
  intro l
  induction l with
  | nil => intro i j; simp [mapIdxFrom]
  | cons p ps ih =>
    intro i j
    cases j with
    | zero => simp [mapIdxFrom]
    | succ j =>
      have harith : i + 1 + j = i + (j + 1) := by omega
      simp [mapIdxFrom, ih (i + 1) j, harith]

/-! ### Claim theorems -/

/-- C2: for a tender item whose name equals (case-insensitively) the name of
exactly one catalog entry and whose requested scope equals that entry's
scope-of-work after case-folding and trimming surrounding whitespace, the
matching pass yields status `matched` with that entry as the matched
reference. -/
theorem claimC2_exact_unique_scope_matched
    (sor : List SORItem) (adapter : String → String → Option String)
    (t : TenderItem) (e : SORItem)
    (hE : exactMatches sor t.name = [e])
    (hScope : trimStr (lowerStr e.scopeOfWork) = trimStr (lowerStr t.requestedScope)) :
    (processItem sor adapter t).status = Status.matched ∧
      (processItem sor adapter t).matchedRate = some e := by
  rw [processItem_exact hE]
  have hsort : sortByRate [e] = [e] := rfl
  constructor
  · simp [hsort, hScope]
  · simp [hsort]

/-- Witness for C2 at a concrete catalog and tender item. -/
theorem claimC2_witness :
    (processItem
        [{ id := "s1", name := "Pump", unit := "nos", rate := 100,
           scopeOfWork := " Supply and fixing ", source := "", timestamp := 0 }]
        (fun _ _ => none)
        { id := "t1", name := "PUMP", quantity := 1,
          requestedScope := "supply AND fixing", estimatedRate := none,
          matchedRate := none, status := Status.pending }).status = Status.matched ∧
      (processItem
        [{ id := "s1", name := "Pump", unit := "nos", rate := 100,
           scopeOfWork := " Supply and fixing ", source := "", timestamp := 0 }]
        (fun _ _ => none)
        { id := "t1", name := "PUMP", quantity := 1,
          requestedScope := "supply AND fixing", estimatedRate := none,
          matchedRate := none, status := Status.pending }).matchedRate =
      some { id := "s1", name := "Pump", unit := "nos", rate := 100,
             scopeOfWork := " Supply and fixing ", source := "", timestamp := 0 } :=
  claimC2_exact_unique_scope_matched _ _ _ _ (by decide) (by decide)

/-- C3: for a tender item whose name matches (case-insensitively) two or more
catalog entries with different rates, the matching pass selects an entry of
minimum rate among them as the matched reference; the catalog list `sor` is
universally quantified, so this holds for every ordering of the catalog. -/
theorem claimC3_lowest_rate_selected
    (sor : List SORItem) (adapter : String → String → Option String) (t : TenderItem)
    (hlen : 2 ≤ (exactMatches sor t.name).length)
    (_hdiff : ∃ a ∈ exactMatches sor t.name, ∃ b ∈ exactMatches sor t.name,
      a.rate ≠ b.rate) :
    ∃ e, (processItem sor adapter t).matchedRate = some e ∧
      e ∈ exactMatches sor t.name ∧
      ∀ x ∈ exactMatches sor t.name, e.rate ≤ x.rate := by
  cases hE : exactMatches sor t.name with
  | nil => rw [hE] at hlen; simp at hlen
  | cons e es =>
    rw [processItem_exact hE]
    refine ⟨(sortByRate (e :: es)).headD e, rfl, ?_, ?_⟩
    · exact sortByRate_headD_mem e es e
    · exact sortByRate_headD_min (e :: es) e

/-- Witness for C3: two same-named entries with the cheaper one listed
second, showing a minimum-rate entry is still selected. -/
theorem claimC3_witness :
    ∃ e, (processItem
        [{ id := "s1", name := "Pipe", unit := "m", rate := 200,
           scopeOfWork := "a", source := "", timestamp := 0 },
         { id := "s2", name := "PIPE", unit := "m", rate := 120,
           scopeOfWork := "b", source := "", timestamp := 1 }]
        (fun _ _ => none)
        { id := "t1", name := "pipe", quantity := 1, requestedScope := "c",
          estimatedRate := none, matchedRate := none,
          status := Status.pending }).matchedRate = some e ∧
      e ∈ exactMatches
        [{ id := "s1", name := "Pipe", unit := "m", rate := 200,
           scopeOfWork := "a", source := "", timestamp := 0 },
         { id := "s2", name := "PIPE", unit := "m", rate := 120,
           scopeOfWork := "b", source := "", timestamp := 1 }] "pipe" ∧
      ∀ x ∈ exactMatches
        [{ id := "s1", name := "Pipe", unit := "m", rate := 200,
           scopeOfWork := "a", source := "", timestamp := 0 },
         { id := "s2", name := "PIPE", unit := "m", rate := 120,
           scopeOfWork := "b", source := "", timestamp := 1 }] "pipe",
        e.rate ≤ x.rate :=
  claimC3_lowest_rate_selected _ _ _ (by decide)
    ⟨{ id := "s1", name := "Pipe", unit := "m", rate := 200,
       scopeOfWork := "a", source := "", timestamp := 0 }, by decide,
     { id := "s2", name := "PIPE", unit := "m", rate := 120,
       scopeOfWork := "b", source := "", timestamp := 1 }, by decide, by decide⟩

/-- C4: a catalog entry is flagged by the benchmark predicate `isLowest`
exactly when the group of entries sharing its case-insensitive name has more
than one member and the entry's rate is a minimum of that group; a singleton
group flags nothing, and all entries tying at the minimum are flagged. -/
theorem claimC4_benchmark_characterization
    (allRates : List SORItem) (item : SORItem) (hmem : item ∈ allRates) :
    (isLowest allRates item = true ↔
      1 < (allRates.filter fun r => lowerStr r.name = lowerStr item.name).length ∧
        ∀ x ∈ allRates.filter fun r => lowerStr r.name = lowerStr item.name,
          item.rate ≤ x.rate) := by
  have hmemG : item ∈ allRates.filter fun r => lowerStr r.name = lowerStr item.name :=
    List.mem_filter.mpr ⟨hmem, by simp⟩
  have h1 : isLowest allRates item = true ↔
      (1 < (allRates.filter fun r => lowerStr r.name = lowerStr item.name).length ∧
        item.rate = minRateOf (allRates.filter fun r => lowerStr r.name = lowerStr item.name)) := by
    simp [isLowest]
  rw [h1]
  constructor
  · rintro ⟨hl, heq⟩
    refine ⟨hl, ?_⟩
    intro x hx
    rw [heq]
    exact minRateOf_le x hx
  · rintro ⟨hl, hle⟩
    refine ⟨hl, ?_⟩
    cases hGc : allRates.filter fun r => lowerStr r.name = lowerStr item.name with
    | nil => rw [hGc] at hmemG; cases hmemG
    | cons g gs =>
      have h2 : minRateOf ((allRates.filter fun r => lowerStr r.name = lowerStr item.name)) ≤
          item.rate := minRateOf_le item hmemG
      obtain ⟨z, hz, hzeq⟩ := minRateOf_attained g gs
      have h3 : item.rate ≤ minRateOf (g :: gs) := by
        rw [hzeq]
        exact hle z (by rw [hGc]; exact hz)
      rw [hGc] at h2
      exact le_antisymm h3 h2

/-- Witness for C4: two same-named entries; the cheaper one satisfies both
sides of the characterization. -/
theorem claimC4_witness :
    isLowest
      [{ id := "s1", name := "Cable", unit := "m", rate := 80,
         scopeOfWork := "a", source := "", timestamp := 0 },
       { id := "s2", name := "cable", unit := "m", rate := 95,
         scopeOfWork := "b", source := "", timestamp := 1 }]
      { id := "s1", name := "Cable", unit := "m", rate := 80,
        scopeOfWork := "a", source := "", timestamp := 0 } = true :=
  (claimC4_benchmark_characterization _ _ (by decide)).mpr (by decide)

/-- C5: the adapter call `findBestMatchingItem` returns `none` on an empty
catalog summary without issuing the remote call (second component `false`),
and returns `none` both when the remote call fails and when its response
text fails to parse; the embedding is a total function, so no exception
reaches the caller. -/
theorem claimC5_findBestMatch_safe (dbItems : List DbSummaryItem) (remote : RemoteOutcome) :
    (dbItems = [] → findBestMatchingItem dbItems remote = (none, false)) ∧
      (remote = RemoteOutcome.failure → (findBestMatchingItem dbItems remote).1 = none) ∧
      (remote = RemoteOutcome.response none → (findBestMatchingItem dbItems remote).1 = none) := by
  refine ⟨?_, ?_, ?_⟩
  · rintro rfl; rfl
  · rintro rfl
    by_cases h : dbItems.isEmpty <;> simp [findBestMatchingItem, h]
  · rintro rfl
    by_cases h : dbItems.isEmpty <;> simp [findBestMatchingItem, h]

/-- Witness for C5 at an empty and a nonempty catalog summary. -/
theorem claimC5_witness :
    findBestMatchingItem [] RemoteOutcome.failure = (none, false) ∧
      (findBestMatchingItem [{ id := "s1", name := "Pump" }] RemoteOutcome.failure).1 = none ∧
      (findBestMatchingItem [{ id := "s1", name := "Pump" }]
        (RemoteOutcome.response none)).1 = none :=
  ⟨(claimC5_findBestMatch_safe [] RemoteOutcome.failure).1 rfl,
   (claimC5_findBestMatch_safe [{ id := "s1", name := "Pump" }]
      RemoteOutcome.failure).2.1 rfl,
   (claimC5_findBestMatch_safe [{ id := "s1", name := "Pump" }]
      (RemoteOutcome.response none)).2.2 rfl⟩

/-- C6: the "accept match" action is idempotent — applying it twice equals
applying it once; on an item already in state `matched` (or on any item
whose id differs from the target) it is the identity; and it never changes
any item's matched reference, nor any item at another list position. -/
theorem claimC6_accept_idempotent (items : List TenderItem) (tid : String) :
    acceptMatch (acceptMatch items tid) tid = acceptMatch items tid ∧
      (∀ i : TenderItem, i.status = Status.matched → acceptOne tid i = i) ∧
      (∀ i : TenderItem, i.id ≠ tid → acceptOne tid i = i) ∧
      (∀ i : TenderItem, (acceptOne tid i).matchedRate = i.matchedRate) ∧
      (∀ (j : ℕ) (i : TenderItem), items[j]? = some i → i.id ≠ tid →
        (acceptMatch items tid)[j]? = some i) := by
  have hone : ∀ i : TenderItem, acceptOne tid (acceptOne tid i) = acceptOne tid i := by
    intro i
    by_cases h : i.id = tid <;> simp [acceptOne, h]
  have hother : ∀ i : TenderItem, i.id ≠ tid → acceptOne tid i = i := by
    intro i h
    simp [acceptOne, h]
  refine ⟨?_, ?_, hother, ?_, ?_⟩
  · simp only [acceptMatch, List.map_map]
    exact List.map_congr_left fun i _ => hone i
  · intro i hst
    by_cases h : i.id = tid
    · cases i
      simp only [acceptOne, h, if_pos]
      simp_all
    · exact hother i h
  · intro i
    by_cases h : i.id = tid <;> simp [acceptOne, h]
  · intro j i hj hid
    simp only [acceptMatch, List.getElem?_map, hj]
    simp [hother i hid]

/-- Witness for C6: a two-item list with a `review` item and a `matched`
item; accepting the review item twice equals accepting once, the matched
item is untouched, and the other position is unchanged. -/
theorem claimC6_witness :
    acceptMatch (acceptMatch
        [{ id := "t1", name := "A", quantity := 1, requestedScope := "r",
           estimatedRate := none, matchedRate := none, status := Status.review },
         { id := "t2", name := "B", quantity := 2, requestedScope := "s",
           estimatedRate := none, matchedRate := none, status := Status.matched }] "t1") "t1" =
      acceptMatch
        [{ id := "t1", name := "A", quantity := 1, requestedScope := "r",
           estimatedRate := none, matchedRate := none, status := Status.review },
         { id := "t2", name := "B", quantity := 2, requestedScope := "s",
           estimatedRate := none, matchedRate := none, status := Status.matched }] "t1" ∧
      acceptOne "t1"
        { id := "t2", name := "B", quantity := 2, requestedScope := "s",
          estimatedRate := none, matchedRate := none, status := Status.matched } =
        { id := "t2", name := "B", quantity := 2, requestedScope := "s",
          estimatedRate := none, matchedRate := none, status := Status.matched } :=
  ⟨(claimC6_accept_idempotent
      [{ id := "t1", name := "A", quantity := 1, requestedScope := "r",
         estimatedRate := none, matchedRate := none, status := Status.review },
       { id := "t2", name := "B", quantity := 2, requestedScope := "s",
         estimatedRate := none, matchedRate := none, status := Status.matched }] "t1").1,
   (claimC6_accept_idempotent
      [{ id := "t1", name := "A", quantity := 1, requestedScope := "r",
         estimatedRate := none, matchedRate := none, status := Status.review },
       { id := "t2", name := "B", quantity := 2, requestedScope := "s",
         estimatedRate := none, matchedRate := none, status := Status.matched }] "t1").2.1
      _ rfl⟩

/-- C1 counterexample: in the monolithic app's matching pass
(`handleProcessTender`), a tender item with no exact-name catalog match
whose adapter id resolves to an existing entry is assigned status
`matched`, not `review`, refuting "assigns status 'review' (never
'matched')". -/
theorem claimC1_counterexample :
    exactMatches
        [{ id := "sor-1", name := "LT Control Panel", unit := "nos", rate := 120000,
           scopeOfWork := "Supply and installation", source := "CPWD", timestamp := 0 }]
        "Control Panel 400V" = [] ∧
      List.find? (fun d : SORItem => d.id = "sor-1")
        [{ id := "sor-1", name := "LT Control Panel", unit := "nos", rate := 120000,
           scopeOfWork := "Supply and installation", source := "CPWD", timestamp := 0 }] =
        some { id := "sor-1", name := "LT Control Panel", unit := "nos", rate := 120000,
               scopeOfWork := "Supply and installation", source := "CPWD", timestamp := 0 } ∧
      (processTenderItem
        [{ id := "sor-1", name := "LT Control Panel", unit := "nos", rate := 120000,
           scopeOfWork := "Supply and installation", source := "CPWD", timestamp := 0 }]
        (fun _ _ => some "sor-1") "t-1"
        { name := "Control Panel 400V", quantity := some 1,
          requestedScope := "standard wiring", estimatedRate := none }).status =
        Status.matched ∧
      (processTenderItem
        [{ id := "sor-1", name := "LT Control Panel", unit := "nos", rate := 120000,
           scopeOfWork := "Supply and installation", source := "CPWD", timestamp := 0 }]
        (fun _ _ => some "sor-1") "t-1"
        { name := "Control Panel 400V", quantity := some 1,
          requestedScope := "standard wiring", estimatedRate := none }).status ≠
        Status.review := by
  refine ⟨by decide, by decide, by decide, by decide⟩

/-- C1 as amended: in the `TenderProcessor` matching pass (`handleProcess`),
a tender item with no exact-name catalog match whose adapter id resolves to
an existing entry is assigned status `review` with that entry as the
matched reference; the monolithic `handleProcessTender` instead assigns
such items status `matched`. -/
theorem claimC1_semantic_requires_review
    (sor : List SORItem) (adapter : String → String → Option String)
    (t : TenderItem) (mid : String) (e : SORItem)
    (hE : exactMatches sor t.name = [])
    (hA : adapter t.name t.requestedScope = some mid) (hm : mid ≠ "")
    (hF : sor.find? (fun d => d.id = mid) = some e) :
    (processItem sor adapter t).status = Status.review ∧
      (processItem sor adapter t).matchedRate = some e := by
  rw [processItem_semantic hE hA hm hF]
  exact ⟨rfl, rfl⟩

/-- Witness for the amended C1 at a concrete catalog and tender item. -/
theorem claimC1_witness :
    (processItem
        [{ id := "sor-1", name := "LT Control Panel", unit := "nos", rate := 120000,
           scopeOfWork := "Supply and installation", source := "CPWD", timestamp := 0 }]
        (fun _ _ => some "sor-1")
        { id := "t-1", name := "Control Panel 400V", quantity := 1,
          requestedScope := "standard wiring", estimatedRate := none,
          matchedRate := none, status := Status.pending }).status = Status.review ∧
      (processItem
        [{ id := "sor-1", name := "LT Control Panel", unit := "nos", rate := 120000,
           scopeOfWork := "Supply and installation", source := "CPWD", timestamp := 0 }]
        (fun _ _ => some "sor-1")
        { id := "t-1", name := "Control Panel 400V", quantity := 1,
          requestedScope := "standard wiring", estimatedRate := none,
          matchedRate := none, status := Status.pending }).matchedRate =
        some { id := "sor-1", name := "LT Control Panel", unit := "nos", rate := 120000,
               scopeOfWork := "Supply and installation", source := "CPWD", timestamp := 0 } :=
  claimC1_semantic_requires_review _ _ _ "sor-1" _ (by decide) rfl (by decide) (by decide)

/-- C7 counterexample: a backup file whose content is valid JSON but not an
array (here the number `42`) leaves the store unchanged but produces no
notice at all — the "Invalid backup file." alert is raised only when
`JSON.parse` throws, so the claim's "reports an explicit 'invalid file'
notice" fails for the valid-JSON non-array case. -/
theorem claimC7_counterexample :
    handleRestore
        [{ id := "s1", name := "Pipe", unit := "m", rate := 50,
           scopeOfWork := "supply", source := "", timestamp := 1 }]
        true (some (JsonValue.jnum 42)) =
      ([{ id := "s1", name := "Pipe", unit := "m", rate := 50,
          scopeOfWork := "supply", source := "", timestamp := 1 }], none) ∧
      (handleRestore
        [{ id := "s1", name := "Pipe", unit := "m", rate := 50,
           scopeOfWork := "supply", source := "", timestamp := 1 }]
        true (some (JsonValue.jnum 42))).2 ≠ some "Invalid backup file." := by
  refine ⟨rfl, by decide⟩

/-- C7 as amended: restoring from a file that is not valid JSON reports the
explicit "Invalid backup file." notice and leaves the store unchanged;
restoring from a file whose content is valid JSON but not an array leaves
the store unchanged but silently, with no notice. -/
theorem claimC7_restore_failure
    (store : List SORItem) (confirmed : Bool) (parsed : Option JsonValue) :
    (parsed = none →
        handleRestore store confirmed parsed = (store, some "Invalid backup file.")) ∧
      (∀ j, parsed = some j → (∀ l, j ≠ JsonValue.jarr l) →
        handleRestore store confirmed parsed = (store, none)) := by
  constructor
  · rintro rfl; rfl
  · rintro j rfl hj
    cases j with
    | jarr l => exact absurd rfl (hj l)
    | jnull => rfl
    | jbool b => rfl
    | jnum q => rfl
    | jstr s => rfl
    | jobj => rfl

/-- Witness for the amended C7 on a one-entry store. -/
theorem claimC7_witness :
    handleRestore
        [{ id := "s1", name := "Pipe", unit := "m", rate := 50,
           scopeOfWork := "supply", source := "", timestamp := 1 }]
        true none =
      ([{ id := "s1", name := "Pipe", unit := "m", rate := 50,
          scopeOfWork := "supply", source := "", timestamp := 1 }],
        some "Invalid backup file.") ∧
      handleRestore
        [{ id := "s1", name := "Pipe", unit := "m", rate := 50,
           scopeOfWork := "supply", source := "", timestamp := 1 }]
        true (some (JsonValue.jstr "hello")) =
      ([{ id := "s1", name := "Pipe", unit := "m", rate := 50,
          scopeOfWork := "supply", source := "", timestamp := 1 }], none) :=
  ⟨(claimC7_restore_failure _ true none).1 rfl,
   (claimC7_restore_failure _ true (some (JsonValue.jstr "hello"))).2
      (JsonValue.jstr "hello") rfl (by intro l; simp)⟩

theorem escQuotes_eq_flatMap (cs : List Char) :
    escQuotes cs = cs.flatMap fun c => if c = '"' then ['"', '"'] else [c] := by
  induction cs with
  | nil => rfl
  | cons c cs ih =>
    simp only [escQuotes, List.flatMap_cons]
    split
    · rename_i h
      simp [h, ih]
    · rename_i h
      simp [h, ih]

/-- C8: CSV export wraps every field in double quotes with each embedded
double quote doubled (stated independently at the character level), joins
the header and data rows with CRLF, and prefixes the output with a UTF-8
byte-order mark; in particular `25mm "Heavy" Pipe` is escaped as two double
quotes inside the quoted field. -/
theorem claimC8_csv_format :
    (∀ s : String, (escapeCell s).data =
        '"' :: ((s.data.flatMap fun c => if c = '"' then ['"', '"'] else [c]) ++ ['"'])) ∧
      (∀ (headers : List String) (rows : List (List String)),
        generateCSV headers rows =
          "\uFEFF" ++ String.intercalate "\r\n" ((headers :: rows).map csvLine)) ∧
      (∀ (headers : List String) (rows : List (List String)),
        (generateCSV headers rows).data.head? = some '\uFEFF') ∧
      escapeCell "25mm \"Heavy\" Pipe" = "\"25mm \"\"Heavy\"\" Pipe\"" := by
  refine ⟨?_, ?_, ?_, ?_⟩
  · intro s
    simp [escapeCell, String.data_append, escQuotes_eq_flatMap]
  · intro headers rows
    rfl
  · intro headers rows
    simp [generateCSV, String.data_append]
  · decide

/-- C9: the automatic matching pass produces exactly one item per parsed
record, in input order; every produced item's status is `matched`, `review`
or `no-match` (never `pending`); each item keeps its record's name,
requested scope and estimated rate (and the falsy-defaulted quantity); and
an item carries a matched reference exactly when its status is not
`no-match`. -/
theorem claimC9_pass_invariants
    (sor : List SORItem) (adapter : String → String → Option String)
    (idGen : ℕ → String) (parsed : List ParsedItem) :
    (handleProcess sor adapter idGen parsed).length = parsed.length ∧
      ∀ (j : ℕ) (p : ParsedItem) (t : TenderItem),
        parsed[j]? = some p → (handleProcess sor adapter idGen parsed)[j]? = some t →
          (t.status ≠ Status.pending ∧
            t.name = p.name ∧
            t.requestedScope = p.requestedScope ∧
            t.estimatedRate = p.estimatedRate ∧
            t.quantity = defaultQuantity p.quantity ∧
            (t.matchedRate.isSome ↔ t.status ≠ Status.noMatch)) := by
  constructor
  · exact mapIdxFrom_length _ parsed 0
  · intro j p t hp ht
    rw [handleProcess, mapIdxFrom_getElem?, hp] at ht
    have ht2 : some (processItem sor adapter (toInitial (idGen (0 + j)) p)) = some t := ht
    obtain rfl : t = processItem sor adapter (toInitial (idGen (0 + j)) p) :=
      (Option.some_inj.mp ht2).symm
    obtain ⟨hname, hscope, hest, hqty, _, hpend, hmr⟩ :=
      processItem_shape sor adapter (toInitial (idGen (0 + j)) p)
    exact ⟨hpend, hname, hscope, hest, hqty, hmr rfl⟩

/-- Witness for C9 on a one-record parse against an empty catalog. -/
theorem claimC9_witness :
    (handleProcess [] (fun _ _ => none) (fun _ => "id0")
        [{ name := "X", quantity := none, requestedScope := "y",
           estimatedRate := none }]).length = 1 ∧
      ((handleProcess [] (fun _ _ => none) (fun _ => "id0")
        [{ name := "X", quantity := none, requestedScope := "y",
           estimatedRate := none }])[0]?.map (fun t => t.status) ≠
        some Status.pending) := by
  have h := claimC9_pass_invariants [] (fun _ _ => none) (fun _ => "id0")
    [{ name := "X", quantity := none, requestedScope := "y", estimatedRate := none }]
  refine ⟨h.1, ?_⟩
  have h0 := h.2 0
    { name := "X", quantity := none, requestedScope := "y", estimatedRate := none }
    (processItem [] (fun _ _ => none)
      (toInitial "id0"
        { name := "X", quantity := none, requestedScope := "y", estimatedRate := none }))
    rfl rfl
  have hsome : (handleProcess [] (fun _ _ => none) (fun _ => "id0")
      [{ name := "X", quantity := none, requestedScope := "y",
         estimatedRate := none }])[0]? =
      some (processItem [] (fun _ _ => none)
        (toInitial "id0"
          { name := "X", quantity := none, requestedScope := "y",
            estimatedRate := none })) := rfl
  rw [hsome]
  intro hcontra
  exact h0.1 (Option.some_inj.mp hcontra)

/-- C10 counterexample: for a tender item with a nonzero estimated rate and
no matched reference (quoted rate falls back to 0), `calculateDiff` returns
`none` but the CSV Percentage Diff cell is the computed value −100%, not
the literal `N/A`, refuting "the CSV renders 'N/A'" for the
quoted-rate-absent-or-zero case. -/
theorem claimC10_counterexample :
    calculateDiff (some 100)
        (({ id := "t1", name := "Pump", quantity := 2, requestedScope := "supply",
            estimatedRate := some 100, matchedRate := none,
            status := Status.noMatch } : TenderItem).matchedRate.map fun m => m.rate) =
        none ∧
      exportDiffCell
        { id := "t1", name := "Pump", quantity := 2, requestedScope := "supply",
          estimatedRate := some 100, matchedRate := none, status := Status.noMatch } =
        DiffCell.percent (-100) ∧
      DiffCell.percent (-100) ≠ DiffCell.na := by
  refine ⟨rfl, ?_, by simp⟩
  show exportDiffCell _ = DiffCell.percent (-100)
  simp only [exportDiffCell, Option.map_none, Option.getD_none, Option.getD_some]
  norm_num

/-- C10 as amended: `calculateDiff` returns `null` exactly when the
estimated or the quoted rate is absent or 0 (a present-but-zero rate is
treated as absent), so whenever it produces a value the division is by a
nonzero estimate; the CSV Percentage Diff cell, however, renders `N/A`
exactly when the estimated rate is absent or 0 — with a nonzero estimate it
renders a computed value even when the quoted rate is absent or 0. -/
theorem claimC10_variance_guarded (est quoted : Option ℚ) (i : TenderItem) :
    (calculateDiff est quoted = none ↔
        (est = none ∨ est = some 0 ∨ quoted = none ∨ quoted = some 0)) ∧
      (∀ v : ℚ, calculateDiff est quoted = some v →
        ∃ e q : ℚ, est = some e ∧ quoted = some q ∧ e ≠ 0 ∧ q ≠ 0 ∧
          v = (q - e) / e * 100) ∧
      (exportDiffCell i = DiffCell.na ↔
        (i.estimatedRate = none ∨ i.estimatedRate = some 0)) := by
  refine ⟨?_, ?_, ?_⟩
  · cases est with
    | none => simp [calculateDiff]
    | some e =>
      cases quoted with
      | none => simp [calculateDiff]
      | some q =>
        by_cases he : e = 0
        · simp [calculateDiff, he]
        · by_cases hq : q = 0
          · simp [calculateDiff, he, hq]
          · simp [calculateDiff, he, hq]
  · intro v hv
    cases est with
    | none => simp [calculateDiff] at hv
    | some e =>
      cases quoted with
      | none => simp [calculateDiff] at hv
      | some q =>
        by_cases he : e = 0
        · simp [calculateDiff, he] at hv
        · by_cases hq : q = 0
          · simp [calculateDiff, he, hq] at hv
          · refine ⟨e, q, rfl, rfl, he, hq, ?_⟩
            simp [calculateDiff, he, hq] at hv
            exact hv.symm
  · cases hmr : i.estimatedRate with
    | none => simp [exportDiffCell, hmr]
    | some e =>
      by_cases he : e = 0
      · simp [exportDiffCell, hmr, he]
      · simp [exportDiffCell, hmr, he]

/-- Witness for the amended C10 at concrete rates and a concrete item. -/
theorem claimC10_witness :
    calculateDiff (some 100) (some 0) = none ∧
      exportDiffCell
        { id := "t1", name := "Pump", quantity := 2, requestedScope := "supply",
          estimatedRate := none, matchedRate := none, status := Status.noMatch } =
        DiffCell.na :=
  ⟨(claimC10_variance_guarded (some 100) (some 0)
      { id := "t1", name := "Pump", quantity := 2, requestedScope := "supply",
        estimatedRate := none, matchedRate := none, status := Status.noMatch }).1.mpr
      (Or.inr (Or.inr (Or.inr rfl))),
   (claimC10_variance_guarded (some 100) (some 0)
      { id := "t1", name := "Pump", quantity := 2, requestedScope := "supply",
        estimatedRate := none, matchedRate := none, status := Status.noMatch }).2.2.mpr
      (Or.inl rfl)⟩
